import Mathlib

/-!
Verification of the indicator / scoring / backtesting engine of the
stock_analysis repository.

The Python sources embedded here:
  * `src/src/analyzers/_test_2years.py`   (map_score, run_backtest, grid search)
  * `src/src/analyzers/technical_indicator.py`
       (_calculate_rsi, _calculate_macd_diff, _calculate_kd,
        calculate_indicators, get_technical_score)
  * `src/analyzers/swing_trading_analysis.py` (analyze_swing_stock scoring)
  * `src/analyzers/ma_analyzer.py`            (analyze_ma scoring)

Numeric model: pandas float values are modelled as `XQ`, rationals extended
with the three non-finite IEEE values that the code can actually produce
(positive infinity from x/0 with x > 0, negative infinity from x/0 with
x < 0, and NaN from 0/0 or missing data).  Rounding of float arithmetic is
not modelled (all finite arithmetic is exact rational arithmetic); the only
IEEE behaviours the claims depend on are the zero-division results and NaN
propagation, which `XQ` reproduces exactly.
-/

/-- Extended rational: a finite value, `+inf`, `-inf`, or NaN.  Models the
IEEE float values reachable in the analyzer code. -/
inductive XQ where
  | fin (q : ℚ)
  | inf
  | ninf
  | nan
deriving DecidableEq

/-- `pd.isna` on an `XQ` value: true exactly on NaN. -/
def xisna : XQ → Bool
  | XQ.nan => true
  | _ => false

/-- IEEE comparison `v <= c` against a finite bound: false for NaN and
`+inf`, true for `-inf`. -/
def xleC : XQ → ℚ → Bool
  | XQ.fin q, c => decide (q ≤ c)
  | XQ.inf, _ => false
  | XQ.ninf, _ => true
  | XQ.nan, _ => false

/-- IEEE comparison `v >= c` against a finite bound: false for NaN and
`-inf`, true for `+inf`. -/
def xgeC : XQ → ℚ → Bool
  | XQ.fin q, c => decide (c ≤ q)
  | XQ.inf, _ => true
  | XQ.ninf, _ => false
  | XQ.nan, _ => false

/-- IEEE division of finite values: `a / 0` is NaN when `a = 0`, `+inf`
when `a > 0`, `-inf` when `a < 0`; otherwise exact. -/
def xdivQ (a b : ℚ) : XQ :=
  if b = 0 then
    if a = 0 then XQ.nan else if 0 < a then XQ.inf else XQ.ninf
  else XQ.fin (a / b)

/-- IEEE addition on `XQ` (NaN-propagating, `inf + -inf = NaN`). -/
def xadd : XQ → XQ → XQ
  | XQ.nan, _ => XQ.nan
  | _, XQ.nan => XQ.nan
  | XQ.inf, XQ.ninf => XQ.nan
  | XQ.ninf, XQ.inf => XQ.nan
  | XQ.inf, _ => XQ.inf
  | _, XQ.inf => XQ.inf
  | XQ.ninf, _ => XQ.ninf
  | _, XQ.ninf => XQ.ninf
  | XQ.fin a, XQ.fin b => XQ.fin (a + b)

/-- Division of an `XQ` by a positive natural count (used for window means). -/
def xdivNat (x : XQ) (n : ℕ) : XQ :=
  match x with
  | XQ.fin q => XQ.fin (q / (n : ℚ))
  | XQ.inf => XQ.inf
  | XQ.ninf => XQ.ninf
  | XQ.nan => XQ.nan

/-- `map_score` from `_test_2years.py` (lines 85-92):
NaN maps to 0; `v <= low` maps to 100; `v >= high` maps to 0; otherwise
linear interpolation `(high - v) / (high - low) * 100`.  Non-finite,
non-NaN values are caught by the two threshold guards exactly as the
float comparisons would catch them. -/
def map_score (v : XQ) (low high : ℚ) : ℚ :=
  if xisna v then 0
  else if xleC v low then 100
  else if xgeC v high then 0
  else
    match v with
    | XQ.fin q => (high - q) / (high - low) * 100
    | _ => 0

/-- MACD-histogram score from `_test_2years.py` line 96:
`(max(min(v, 2), -2) + 2) / 4 * 100` on a finite value. -/
def macdMapScore (m : ℚ) : ℚ := (max (min m 2) (-2) + 2) / 4 * 100

/-- RSI sub-score from `get_technical_score` (technical_indicator.py 164-173):
NaN maps to 0, `<= 30` to 100, `>= 70` to 0, else `(70 - v)/(70 - 30)*100`.
`+inf` falls into the `>= 70` branch and `-inf` into the `<= 30` branch,
matching the float comparisons. -/
def rsiScoreX : XQ → ℚ
  | XQ.nan => 0
  | XQ.inf => 0
  | XQ.ninf => 100
  | XQ.fin r =>
      if r ≤ 30 then 100 else if 70 ≤ r then 0 else (70 - r) / (70 - 30) * 100

/-- MACD sub-score from `get_technical_score` (technical_indicator.py 175-181):
NaN maps to 0, otherwise the value is clamped to `[-2, 2]` and mapped by
`(clipped + 2)/4*100`.  Python's `min`/`max` send `+inf` to clamp value 2
and `-inf` to clamp value `-2`. -/
def macdScoreX : XQ → ℚ
  | XQ.nan => 0
  | XQ.inf => (2 + 2) / 4 * 100
  | XQ.ninf => (-2 + 2) / 4 * 100
  | XQ.fin m => (max (min m 2) (-2) + 2) / 4 * 100

/-- KD sub-score from `get_technical_score` (technical_indicator.py 183-203),
used for both %K and %D: NaN maps to 0, `<= 20` to 100, `>= 80` to 0,
else `(80 - v)/(80 - 20)*100`. -/
def kdScoreX : XQ → ℚ
  | XQ.nan => 0
  | XQ.inf => 0
  | XQ.ninf => 100
  | XQ.fin k =>
      if k ≤ 20 then 100 else if 80 ≤ k then 0 else (80 - k) / (80 - 20) * 100

/-- One row of the indicator frame built by `calculate_indicators`. -/
structure IndRow where
  RSI : XQ
  MACD_diff : XQ
  K : XQ
  D : XQ
deriving DecidableEq

/-- Averaging-mode technical score from `get_technical_score`
(technical_indicator.py 205-208): arithmetic mean of the four sub-scores. -/
def techScoreRow (r : IndRow) : ℚ :=
  (rsiScoreX r.RSI + macdScoreX r.MACD_diff + kdScoreX r.K + kdScoreX r.D) / 4

/-- Additive-mode MA score from `analyze_ma` (ma_analyzer.py 40-71):
start at 50, +30 for bullish alignment, +20 for golden cross, -30 for
death cross, clamped to `[0, 100]`. -/
def analyze_ma_score (prev5 prev20 latest5 latest20 latest60 : ℚ) : ℚ :=
  let bull := latest20 < latest5 ∧ latest60 < latest20
  let golden := prev5 < prev20 ∧ latest20 < latest5
  let death := prev20 < prev5 ∧ latest5 < latest20
  let s : ℚ := 50 + (if bull then 30 else 0) + (if golden then 20 else 0)
      - (if death then 30 else 0)
  max 0 (min 100 s)

/-- Indicator fields of one row of the swing-analysis frame
(swing_trading_analysis.py). -/
structure SwingRow where
  MA_short : ℚ
  MA_long : ℚ
  MACD : ℚ
  MACD_SIGNAL : ℚ
  MACD_HIST : ℚ
  RSI : ℚ
  ATR : ℚ
  close : ℚ
  BB_UP : ℚ
  BB_DN : ℚ
deriving DecidableEq

/-- Additive-mode swing score from `analyze_swing_stock`
(swing_trading_analysis.py 103-130): start at 50, apply the signed signal
deltas in program order, clamp to `[0, 100]` at the end. -/
def analyze_swing_score (latest prev : SwingRow) (atrMean : ℚ) : ℚ :=
  let s0 : ℚ := 50
  let s1 := if latest.MA_long < latest.MA_short then s0 + 25 else s0
  let s2 := if prev.MA_short < prev.MA_long ∧ latest.MA_long < latest.MA_short
      then s1 + 20 else s1
  let s3 := if 0 < latest.MACD_HIST then s2 + 15 else s2
  let s4 := if prev.MACD < prev.MACD_SIGNAL ∧ latest.MACD_SIGNAL < latest.MACD
      then s3 + 15 else s3
  let s5 := if latest.RSI < 30 then s4 + 10
      else if 70 < latest.RSI then s4 - 10 else s4
  let s6 := if atrMean < latest.ATR then s5 - 10 else s5
  let s7 := if latest.BB_UP < latest.close then s6 + 10
      else if latest.close < latest.BB_DN then s6 + 10 else s6
  max 0 (min 100 s7)

/-!  RSI (`_calculate_rsi`, technical_indicator.py 72-83).

`prices.diff()` produces a leading NaN followed by the consecutive
differences; gains and losses are the positive parts of the deltas and of
their negations; the trailing averages use `rolling(period,
min_periods=period)`, so position `i` of the result is defined exactly
when `period <= i` (then the window holds the `period` real deltas at
delta indices `i - period .. i - 1`) and `i < length`.  `rs` is the IEEE
quotient of the averages and `RSI = 100 - 100 / (1 + rs)`. -/

/-- Consecutive differences of a price list: `deltas l = [l1 - l0, ...]`. -/
def deltas (closes : List ℚ) : List ℚ :=
  List.zipWith (fun a b => a - b) closes.tail closes

/-- The window of real deltas feeding the RSI rolling means at position
`i`: delta indices `i - period .. i - 1`. -/
def rsiWindow (closes : List ℚ) (period i : ℕ) : List ℚ :=
  ((deltas closes).drop (i - period)).take period

/-- Trailing average gain over a delta window. -/
def avgGain (w : List ℚ) (period : ℕ) : ℚ :=
  (w.map (fun d => max d 0)).sum / (period : ℚ)

/-- Trailing average loss over a delta window. -/
def avgLoss (w : List ℚ) (period : ℕ) : ℚ :=
  (w.map (fun d => max (-d) 0)).sum / (period : ℚ)

/-- `RSI = 100 - 100 / (1 + rs)` on the IEEE value `rs`: a finite quotient
gives the finite formula, `rs = +inf` (and `-inf`) give 100, NaN stays NaN. -/
def rsiOfRs : XQ → XQ
  | XQ.fin r => XQ.fin (100 - 100 / (1 + r))
  | XQ.inf => XQ.fin 100
  | XQ.ninf => XQ.fin 100
  | XQ.nan => XQ.nan

/-- RSI value at position `i` of a price list (NaN while the rolling
window is not yet full, matching `min_periods=period`). -/
def rsiAt (closes : List ℚ) (period i : ℕ) : XQ :=
  if i < period ∨ closes.length ≤ i then XQ.nan
  else
    rsiOfRs (xdivQ (avgGain (rsiWindow closes period i) period)
                   (avgLoss (rsiWindow closes period i) period))

/-- The full RSI series of a price list. -/
def rsiList (closes : List ℚ) (period : ℕ) : List XQ :=
  (List.range closes.length).map (rsiAt closes period)

/-!  MACD (`_calculate_macd_diff`, technical_indicator.py 85-97).
`ewm(span=s, adjust=False)` is the recursive EMA with smoothing factor
`2/(s+1)` seeded at the first element; all values stay finite. -/

/-- Recursive EMA continuation: `e_i = a*x_i + (1-a)*e_{i-1}`. -/
def emaFrom (a : ℚ) (prev : ℚ) : List ℚ → List ℚ
  | [] => []
  | x :: xs =>
      let e := a * x + (1 - a) * prev
      e :: emaFrom a e xs

/-- `ewm(span, adjust=False).mean()` of a list. -/
def emaList (span : ℕ) : List ℚ → List ℚ
  | [] => []
  | x :: xs => x :: emaFrom (2 / ((span : ℚ) + 1)) x xs

/-- `MACD_diff = (EMA_fast - EMA_slow) - EMA(EMA_fast - EMA_slow, signal)`. -/
def macdDiffList (closes : List ℚ) (fast slow signal : ℕ) : List ℚ :=
  let macdLine := List.zipWith (fun a b => a - b)
      (emaList fast closes) (emaList slow closes)
  List.zipWith (fun a b => a - b) macdLine (emaList signal macdLine)

/-!  KD (`_calculate_kd`, technical_indicator.py 99-111). -/

/-- `rolling(w, min_periods=w).min()` at position `i`. -/
def rollMinAt (w : ℕ) (xs : List ℚ) (i : ℕ) : Option ℚ :=
  if i + 1 < w then none else ((xs.take (i + 1)).drop (i + 1 - w)).min?

/-- `rolling(w, min_periods=w).max()` at position `i`. -/
def rollMaxAt (w : ℕ) (xs : List ℚ) (i : ℕ) : Option ℚ :=
  if i + 1 < w then none else ((xs.take (i + 1)).drop (i + 1 - w)).max?

/-- Raw stochastic `%K` at position `i`:
`100 * (close - lowest_low) / (highest_high - lowest_low)` with IEEE
division (the degenerate window `highest = lowest` gives NaN or ±inf). -/
def kRawAt (closes highs lows : List ℚ) (period i : ℕ) : XQ :=
  match rollMinAt period lows i, rollMaxAt period highs i with
  | some ll, some hh => xdivQ (100 * (closes.getD i 0 - ll)) (hh - ll)
  | _, _ => XQ.nan

/-- The raw `%K` series. -/
def kRawList (closes highs lows : List ℚ) (period : ℕ) : List XQ :=
  (List.range closes.length).map (kRawAt closes highs lows period)

/-- `rolling(w, min_periods=w).mean()` over an `XQ` series at position `i`:
NaN while the window is short or contains a NaN, otherwise the mean (with
`±inf` absorbing, as for floats). -/
def rollMeanXAt (w : ℕ) (xs : List XQ) (i : ℕ) : XQ :=
  if i + 1 < w then XQ.nan
  else
    let win := (xs.take (i + 1)).drop (i + 1 - w)
    if win.any xisna then XQ.nan
    else xdivNat (win.foldl xadd (XQ.fin 0)) w

/-- Smoothed `%K`: rolling mean of raw `%K` over `smooth_k`. -/
def kList (closes highs lows : List ℚ) (period sk : ℕ) : List XQ :=
  (List.range closes.length).map
    (rollMeanXAt sk (kRawList closes highs lows period))

/-- `%D`: rolling mean of smoothed `%K` over `smooth_d`. -/
def dList (closes highs lows : List ℚ) (period sk sd : ℕ) : List XQ :=
  (List.range closes.length).map
    (rollMeanXAt sd (kList closes highs lows period sk))

/-!  `calculate_indicators` / `get_technical_score`
(technical_indicator.py 113-208). -/

/-- One price row fetched by `_fetch_price_data` (date order is the list
order). -/
structure PriceRow where
  close : ℚ
  high : ℚ
  low : ℚ
deriving DecidableEq

/-- The indicator frame built by `calculate_indicators` before `dropna`:
per row, RSI(14), MACD_diff(12,26,9), %K and %D (9,3,3).  MACD values are
always finite; they are stored as `XQ` because the frame's columns are
floats. -/
def indRows (rows : List PriceRow) : List IndRow :=
  let c := rows.map (·.close)
  let h := rows.map (·.high)
  let l := rows.map (·.low)
  let rsi := rsiList c 14
  let macd := (macdDiffList c 12 26 9).map XQ.fin
  let k := kList c h l 9 3
  let d := dList c h l 9 3 3
  (List.range rows.length).map (fun i =>
    { RSI := rsi.getD i XQ.nan
      MACD_diff := macd.getD i XQ.nan
      K := k.getD i XQ.nan
      D := d.getD i XQ.nan })

/-- `calculate_indicators` (technical_indicator.py 113-145): `None` when
the price query returns no rows (`_fetch_price_data` returns `None`) or
fewer than 30 rows; otherwise the indicator frame with NaN rows dropped. -/
def calculate_indicators (rows : List PriceRow) : Option (List IndRow) :=
  if rows.isEmpty then none
  else if rows.length < 30 then none
  else some ((indRows rows).filter
    (fun r => !(xisna r.RSI) && !(xisna r.MACD_diff)
        && !(xisna r.K) && !(xisna r.D)))

/-- `get_technical_score` (technical_indicator.py 147-208): 0 when
`calculate_indicators` returns `None` or an empty frame, otherwise the
averaged score of the last row. -/
def get_technical_score (rows : List PriceRow) : ℚ :=
  match calculate_indicators rows with
  | none => 0
  | some ind =>
      match ind.getLast? with
      | none => 0
      | some r => techScoreRow r

/-!  Trade simulator and grid search (`run_backtest` and the `__main__`
loop of `_test_2years.py`).

The simulator consumes, per security, the per-day technical score series
and the per-security financial score; it walks consecutive day pairs
`(prev, today)` exactly like the `for i in range(1, len(dates))` loop. -/

/-- One simulated day: calendar day number (so that
`(today - buy_dt).days` is a subtraction), today's open price (`none`
models NaN), and the day's composite technical score. -/
structure Bar where
  day : ℤ
  openPrice : Option ℚ
  techScore : ℚ
deriving DecidableEq

/-- Simulation parameters: the two technical thresholds passed to
`run_backtest`, plus the module constants FEE_RATE, MAX_HOLD_DAYS and
INITIAL_CAPITAL_PER_STK. -/
structure Params where
  te : ℚ
  tx : ℚ
  fee : ℚ
  maxHold : ℤ
  capital : ℚ
deriving DecidableEq

/-- The parameters of `_test_2years.py` with its global constants:
`FEE_RATE = 0.003`, `MAX_HOLD_DAYS = 120`,
`INITIAL_CAPITAL_PER_STK = 20000`. -/
def defaultParams (te tx : ℚ) : Params :=
  { te := te, tx := tx, fee := 3 / 1000, maxHold := 120, capital := 20000 }

/-- Simulator state: `cash`, position size `pos`, and the buy date
(`none` before the first purchase, as `buy_dt = None`). -/
structure SimState where
  cash : ℚ
  pos : ℚ
  buyDay : Option ℤ
deriving DecidableEq

/-- Entry flag of a day (line 105-107):
`tech_score >= tech_entry and (fscore <= 0 or fscore >= 70)`
(FIN_ENTRY_THRESHOLD = 70). -/
def entrySig (te fs score : ℚ) : Bool :=
  decide (te ≤ score) && (decide (fs ≤ 0) || decide (70 ≤ fs))

/-- Exit flag of a day (line 108-110):
`tech_score <= tech_exit or (fscore > 0 and fscore <= 50)`
(FIN_EXIT_THRESHOLD = 50). -/
def exitSig (tx fs score : ℚ) : Bool :=
  decide (score ≤ tx) || (decide (0 < fs) && decide (fs ≤ 50))

/-- `(today - buy_dt).days >= MAX_HOLD_DAYS`; false when no position was
ever opened (unreachable with `pos > 0`). -/
def heldLong (maxHold : ℤ) (s : SimState) (b : Bar) : Bool :=
  match s.buyDay with
  | some bd => decide (maxHold ≤ b.day - bd)
  | none => false

/-- One iteration of the simulation loop (lines 116-127): skip days with
missing or non-positive open; buy all-in at today's open (net of fee) when
flat and yesterday's entry flag is set; sell at today's open (net of fee)
when holding and yesterday's exit flag is set or the position has been
held for `maxHold` days. -/
def step (ps : Params) (fs : ℚ) (prevB todayB : Bar) (s : SimState) : SimState :=
  match todayB.openPrice with
  | none => s
  | some price =>
      if price ≤ 0 then s
      else if s.pos = 0 ∧ entrySig ps.te fs prevB.techScore = true then
        { cash := 0, pos := s.cash * (1 - ps.fee) / price,
          buyDay := some todayB.day }
      else if 0 < s.pos ∧ (exitSig ps.tx fs prevB.techScore = true
          ∨ heldLong ps.maxHold s todayB = true) then
        { cash := s.pos * price * (1 - ps.fee), pos := 0, buyDay := s.buyDay }
      else s

/-- The loop over consecutive `(prev, today)` day pairs, carrying the
previous day. -/
def simSteps (ps : Params) (fs : ℚ) (prev : Bar) : List Bar → SimState → SimState
  | [], s => s
  | b :: rest, s => simSteps ps fs b rest (step ps fs prev b s)

/-- Run the whole loop from the initial state
`cash = capital, pos = 0, buy_dt = None` (a series of fewer than two days
performs no iteration). -/
def simulate (ps : Params) (fs : ℚ) (bars : List Bar) : SimState :=
  match bars with
  | [] => { cash := ps.capital, pos := 0, buyDay := none }
  | b0 :: rest => simSteps ps fs b0 rest
      { cash := ps.capital, pos := 0, buyDay := none }

/-- Per-security data consumed by one `run_backtest` iteration: the
security's financial score and its day series. -/
structure TickerData where
  fscore : ℚ
  bars : List Bar
deriving DecidableEq

/-- Final cash after the loop (lines 128-130): a still-open position is
liquidated at the last row's open price, net of fee; a NaN last open
makes the cash NaN. -/
def finalCash (ps : Params) (fs : ℚ) (t : TickerData) : XQ :=
  let s := simulate ps fs t.bars
  if 0 < s.pos then
    match t.bars.getLast? with
    | some b =>
        match b.openPrice with
        | some p => XQ.fin (s.pos * p * (1 - ps.fee))
        | none => XQ.nan
    | none => XQ.nan
  else XQ.fin s.cash

/-- Realized percentage return of one security (lines 132-133):
`(cash - capital) / capital * 100`. -/
def profitPct (ps : Params) (fs : ℚ) (t : TickerData) : XQ :=
  match finalCash ps fs t with
  | XQ.fin c => XQ.fin ((c - ps.capital) / ps.capital * 100)
  | XQ.inf => XQ.inf
  | XQ.ninf => XQ.ninf
  | XQ.nan => XQ.nan

/-- Round-half-to-even to an integer (Python's `round` tie rule). -/
def roundHalfEven (x : ℚ) : ℤ :=
  if x - ⌊x⌋ < 1 / 2 then ⌊x⌋
  else if 1 / 2 < x - ⌊x⌋ then ⌊x⌋ + 1
  else if ⌊x⌋ % 2 = 0 then ⌊x⌋ else ⌊x⌋ + 1

/-- `round(q, 2)` (modelled as exact decimal rounding of the rational). -/
def round2 (q : ℚ) : ℚ := (roundHalfEven (q * 100) : ℚ) / 100

/-- `round` lifted to `XQ` (NaN stays NaN). -/
def xround2 : XQ → XQ
  | XQ.fin q => XQ.fin (round2 q)
  | XQ.inf => XQ.inf
  | XQ.ninf => XQ.ninf
  | XQ.nan => XQ.nan

/-- `run_backtest` over a list of securities (lines 60-136): securities
whose price query came back empty are skipped (`if df.empty: continue`);
afterwards `round(sum(results)/len(results), 2) if results else 0.0`. -/
def run_backtest (te tx : ℚ) (ts : List TickerData) : XQ :=
  let results := ts.filterMap (fun t =>
    if t.bars.isEmpty then none
    else some (profitPct (defaultParams te tx) t.fscore t))
  if results.isEmpty then XQ.fin 0
  else xround2 (xdivNat (results.foldl xadd (XQ.fin 0)) results.length)

/-!  Grid search (`__main__`, lines 140-169). -/

/-- Entry thresholds `range(40, 81, 5)`. -/
def gridEntries : List ℕ := List.range' 40 9 5

/-- The iterated `(tech_entry, tech_exit)` pairs: for each entry `e`,
exits `range(20, e, 5)` (each value of `range(40, 81, 5)` is a multiple
of 5, so the count is `(e - 20) / 5` exactly). -/
def gridPairs : List (ℕ × ℕ) :=
  gridEntries.flatMap (fun e =>
    (List.range' 20 ((e - 20) / 5) 5).map (fun x => (e, x)))

/-- Strict lexicographic order on pairs (ascending entry, then ascending
exit). -/
def lexLt (a b : ℕ × ℕ) : Bool :=
  decide (a.1 < b.1) || (decide (a.1 = b.1) && decide (a.2 < b.2))

/-- Adjacent-sortedness of a pair list in the iteration order. -/
def sortedLex : List (ℕ × ℕ) → Bool
  | [] => true
  | [_] => true
  | a :: b :: t => lexLt a b && sortedLex (b :: t)

/-- The selection loop (lines 152-160): starting from the sentinel
`best = (None, -999)`, replace the best exactly when the new average
return is strictly greater. -/
def selectLoop (r : ℕ × ℕ → ℚ) : List (ℕ × ℕ) → Option (ℕ × ℕ) × ℚ → Option (ℕ × ℕ) × ℚ
  | [], acc => acc
  | p :: ps, acc => selectLoop r ps (if acc.2 < r p then (some p, r p) else acc)

/-- The grid search's final selection for one segment, given the average
return `r p` of each parameter pair `p`. -/
def selectBest (r : ℕ × ℕ → ℚ) : Option (ℕ × ℕ) × ℚ :=
  selectLoop r gridPairs (none, -999)

/-- Running best over a list, seeded with `b`, updating on strictly
greater return (the pure content of `selectLoop` once a first pair is
installed). -/
def bestIn (r : ℕ × ℕ → ℚ) (b : ℕ × ℕ) : List (ℕ × ℕ) → ℕ × ℕ
  | [] => b
  | p :: ps => bestIn r (if r b < r p then p else b) ps

/-!  Helper lemmas. -/

/-- The final clamp `max(0, min(100, s))` always lands in `[0, 100]`. -/
theorem clamp_unit_range (s : ℚ) : 0 ≤ max 0 (min 100 s) ∧ max 0 (min 100 s) ≤ 100 :=
  ⟨le_max_left _ _, max_le (by norm_num) (min_le_left _ _)⟩

/-- The RSI sub-score is always in `[0, 100]`. -/
theorem rsiScoreX_range (x : XQ) : 0 ≤ rsiScoreX x ∧ rsiScoreX x ≤ 100 := by
  cases x with
  | fin r =>
      simp only [rsiScoreX]
      split_ifs with h1 h2
      · norm_num
      · norm_num
      · have hr1 : (30 : ℚ) < r := not_le.mp h1
        have hr2 : r < 70 := not_le.mp h2
        constructor
        · exact mul_nonneg (div_nonneg (by linarith) (by norm_num)) (by norm_num)
        · rw [div_mul_eq_mul_div, div_le_iff₀ (by norm_num : (0 : ℚ) < 70 - 30)]
          linarith
  | inf => simp [rsiScoreX]
  | ninf => simp [rsiScoreX]
  | nan => simp [rsiScoreX]

/-- The MACD sub-score is always in `[0, 100]`. -/
theorem macdScoreX_range (x : XQ) : 0 ≤ macdScoreX x ∧ macdScoreX x ≤ 100 := by
  cases x with
  | fin m =>
      simp only [macdScoreX]
      have hc1 : (-2 : ℚ) ≤ max (min m 2) (-2) := le_max_right _ _
      have hc2 : max (min m 2) (-2) ≤ 2 := max_le (min_le_right _ _) (by norm_num)
      constructor
      · exact mul_nonneg (div_nonneg (by linarith) (by norm_num)) (by norm_num)
      · rw [div_mul_eq_mul_div, div_le_iff₀ (by norm_num : (0 : ℚ) < 4)]
        linarith
  | inf => norm_num [macdScoreX]
  | ninf => norm_num [macdScoreX]
  | nan => simp [macdScoreX]

/-- The KD sub-score is always in `[0, 100]`. -/
theorem kdScoreX_range (x : XQ) : 0 ≤ kdScoreX x ∧ kdScoreX x ≤ 100 := by
  cases x with
  | fin k =>
      simp only [kdScoreX]
      split_ifs with h1 h2
      · norm_num
      · norm_num
      · have hk1 : (20 : ℚ) < k := not_le.mp h1
        have hk2 : k < 80 := not_le.mp h2
        constructor
        · exact mul_nonneg (div_nonneg (by linarith) (by norm_num)) (by norm_num)
        · rw [div_mul_eq_mul_div, div_le_iff₀ (by norm_num : (0 : ℚ) < 80 - 20)]
          linarith
  | inf => simp [kdScoreX]
  | ninf => simp [kdScoreX]
  | nan => simp [kdScoreX]

/-- C1: the score-mapping operation returns 100 for values at or below the
low threshold, 0 for values at or above the high threshold, the linear
interpolation `(high - v)/(high - low)*100` strictly in between, and 0 on
a NaN input; the MACD-histogram variant clamps the raw value to `[-2, 2]`
and maps it by `(clamped + 2)/4*100`. -/
theorem map_score_spec (v low high : ℚ) (hlh : low < high) :
    (v ≤ low → map_score (XQ.fin v) low high = 100) ∧
    (high ≤ v → map_score (XQ.fin v) low high = 0) ∧
    (low < v → v < high →
      map_score (XQ.fin v) low high = (high - v) / (high - low) * 100) ∧
    map_score XQ.nan low high = 0 ∧
    (∀ m : ℚ, (m ≤ -2 → macdMapScore m = 0) ∧ (2 ≤ m → macdMapScore m = 100) ∧
      (-2 ≤ m → m ≤ 2 → macdMapScore m = (m + 2) / 4 * 100)) := by
  refine ⟨?_, ?_, ?_, ?_, ?_⟩
  · intro h
    simp [map_score, xisna, xleC, h]
  · intro h
    have h' : ¬ v ≤ low := by linarith
    simp [map_score, xisna, xleC, xgeC, h, h']
  · intro h1 h2
    have h1' : ¬ v ≤ low := by linarith
    have h2' : ¬ high ≤ v := by linarith
    simp [map_score, xisna, xleC, xgeC, h1', h2']
  · simp [map_score, xisna]
  · intro m
    refine ⟨?_, ?_, ?_⟩
    · intro h
      have hm : min m 2 = m := min_eq_left (by linarith)
      have hM : max m (-2) = -2 := max_eq_right h
      rw [macdMapScore, hm, hM]
      norm_num
    · intro h
      have hm : min m 2 = 2 := min_eq_right h
      have hM : max (2 : ℚ) (-2) = 2 := max_eq_left (by norm_num)
      rw [macdMapScore, hm, hM]
      norm_num
    · intro h1 h2
      have hm : min m 2 = m := min_eq_left h2
      have hM : max m (-2) = m := max_eq_left h1
      rw [macdMapScore, hm, hM]

/-- Witness for C1 at `low = 30`, `high = 70`, `v = 50`. -/
theorem map_score_spec_witness :
    ((50 : ℚ) ≤ 30 → map_score (XQ.fin 50) 30 70 = 100) ∧
    ((70 : ℚ) ≤ 50 → map_score (XQ.fin 50) 30 70 = 0) ∧
    ((30 : ℚ) < 50 → (50 : ℚ) < 70 →
      map_score (XQ.fin 50) 30 70 = (70 - 50) / (70 - 30) * 100) ∧
    map_score XQ.nan 30 70 = 0 ∧
    (∀ m : ℚ, (m ≤ -2 → macdMapScore m = 0) ∧ (2 ≤ m → macdMapScore m = 100) ∧
      (-2 ≤ m → m ≤ 2 → macdMapScore m = (m + 2) / 4 * 100)) :=
  map_score_spec 50 30 70 (by norm_num)

/-- C2: every sub-score and every composite score of the three scoring
operations (averaging-mode technical score, additive-mode MA score,
additive-mode swing score) lies in `[0, 100]`, for all inputs. -/
theorem scores_in_unit_range :
    (∀ x : XQ, 0 ≤ rsiScoreX x ∧ rsiScoreX x ≤ 100) ∧
    (∀ x : XQ, 0 ≤ macdScoreX x ∧ macdScoreX x ≤ 100) ∧
    (∀ x : XQ, 0 ≤ kdScoreX x ∧ kdScoreX x ≤ 100) ∧
    (∀ r : IndRow, 0 ≤ techScoreRow r ∧ techScoreRow r ≤ 100) ∧
    (∀ p5 p20 l5 l20 l60 : ℚ, 0 ≤ analyze_ma_score p5 p20 l5 l20 l60 ∧
      analyze_ma_score p5 p20 l5 l20 l60 ≤ 100) ∧
    (∀ latest prev : SwingRow, ∀ am : ℚ,
      0 ≤ analyze_swing_score latest prev am ∧
      analyze_swing_score latest prev am ≤ 100) := by
  refine ⟨rsiScoreX_range, macdScoreX_range, kdScoreX_range, ?_, ?_, ?_⟩
  · intro r
    obtain ⟨a1, a2⟩ := rsiScoreX_range r.RSI
    obtain ⟨b1, b2⟩ := macdScoreX_range r.MACD_diff
    obtain ⟨c1, c2⟩ := kdScoreX_range r.K
    obtain ⟨d1, d2⟩ := kdScoreX_range r.D
    unfold techScoreRow
    constructor
    · exact div_nonneg (by linarith) (by norm_num)
    · rw [div_le_iff₀ (by norm_num : (0 : ℚ) < 4)]
      linarith
  · intro p5 p20 l5 l20 l60
    unfold analyze_ma_score
    exact clamp_unit_range _
  · intro latest prev am
    unfold analyze_swing_score
    exact clamp_unit_range _

/-- C3: a single Flat→Holding→Flat cycle whose entry and exit execute at
the same price `p` realizes cash `c*(1-fee)^2`, hence a return of
`((1-fee)^2 - 1)*100`; with `fee = 0` the return is exactly 0. -/
theorem round_trip_return (ps : Params) (fs c p : ℚ) (b1 b2 b3 b4 : Bar)
    (hc : 0 < c) (hp : 0 < p) (hf : ps.fee < 1)
    (h2 : b2.openPrice = some p) (h4 : b4.openPrice = some p)
    (he : entrySig ps.te fs b1.techScore = true)
    (hx : exitSig ps.tx fs b3.techScore = true) :
    (step ps fs b3 b4 (step ps fs b1 b2 ⟨c, 0, none⟩)).pos = 0 ∧
    (step ps fs b3 b4 (step ps fs b1 b2 ⟨c, 0, none⟩)).cash
        = c * (1 - ps.fee) ^ 2 ∧
    ((step ps fs b3 b4 (step ps fs b1 b2 ⟨c, 0, none⟩)).cash - c) / c * 100
        = ((1 - ps.fee) ^ 2 - 1) * 100 ∧
    (ps.fee = 0 →
      ((step ps fs b3 b4 (step ps fs b1 b2 ⟨c, 0, none⟩)).cash - c) / c * 100
          = 0) := by
  rcases b2 with ⟨d2, op2, sc2⟩
  rcases b4 with ⟨d4, op4, sc4⟩
  obtain rfl : op2 = some p := h2
  obtain rfl : op4 = some p := h4
  have hfe : 0 < 1 - ps.fee := by linarith
  have hs1 : step ps fs b1 ⟨d2, some p, sc2⟩ ⟨c, 0, none⟩
      = ⟨0, c * (1 - ps.fee) / p, some d2⟩ := by
    simp only [step]
    rw [if_neg (not_le.mpr hp), if_pos ⟨trivial, he⟩]
  have hpos : 0 < c * (1 - ps.fee) / p := div_pos (mul_pos hc hfe) hp
  have hs2 : step ps fs b3 ⟨d4, some p, sc4⟩ ⟨0, c * (1 - ps.fee) / p, some d2⟩
      = ⟨c * (1 - ps.fee) / p * p * (1 - ps.fee), 0, some d2⟩ := by
    simp only [step]
    rw [if_neg (not_le.mpr hp), if_neg (fun h => hpos.ne' h.1),
      if_pos ⟨hpos, Or.inl hx⟩]
  rw [hs1, hs2]
  have hcash : c * (1 - ps.fee) / p * p * (1 - ps.fee) = c * (1 - ps.fee) ^ 2 := by
    field_simp
    ring
  refine ⟨rfl, hcash, ?_, ?_⟩
  · rw [hcash]
    field_simp
    ring
  · intro h0
    rw [hcash, h0]
    field_simp

/-- Witness for C3 with the default parameters, `fee = 0.003`, capital
20000, both executions at price 10. -/
theorem round_trip_return_witness :
    (step (defaultParams 60 40) 0 ⟨2, some 10, 30⟩ ⟨3, some 10, 30⟩
      (step (defaultParams 60 40) 0 ⟨0, some 10, 80⟩ ⟨1, some 10, 80⟩
        ⟨20000, 0, none⟩)).pos = 0 ∧
    (step (defaultParams 60 40) 0 ⟨2, some 10, 30⟩ ⟨3, some 10, 30⟩
      (step (defaultParams 60 40) 0 ⟨0, some 10, 80⟩ ⟨1, some 10, 80⟩
        ⟨20000, 0, none⟩)).cash = 20000 * (1 - (defaultParams 60 40).fee) ^ 2 ∧
    ((step (defaultParams 60 40) 0 ⟨2, some 10, 30⟩ ⟨3, some 10, 30⟩
      (step (defaultParams 60 40) 0 ⟨0, some 10, 80⟩ ⟨1, some 10, 80⟩
        ⟨20000, 0, none⟩)).cash - 20000) / 20000 * 100
        = ((1 - (defaultParams 60 40).fee) ^ 2 - 1) * 100 ∧
    ((defaultParams 60 40).fee = 0 →
      ((step (defaultParams 60 40) 0 ⟨2, some 10, 30⟩ ⟨3, some 10, 30⟩
        (step (defaultParams 60 40) 0 ⟨0, some 10, 80⟩ ⟨1, some 10, 80⟩
          ⟨20000, 0, none⟩)).cash - 20000) / 20000 * 100 = 0) :=
  round_trip_return (defaultParams 60 40) 0 20000 10
    ⟨0, some 10, 80⟩ ⟨1, some 10, 80⟩ ⟨2, some 10, 30⟩ ⟨3, some 10, 30⟩
    (by norm_num) (by norm_num) (by norm_num [defaultParams])
    rfl rfl (by decide) (by decide)

/-- C4: on any day with a valid open price, a position held for at least
`max_hold_days` days is liquidated by the simulator regardless of the
exit flag: the resulting position is 0 and the cash is the sale proceeds
net of fee. -/
theorem forced_liquidation (ps : Params) (fs p : ℚ) (bd : ℤ) (b1 b2 : Bar)
    (s : SimState) (hpos : 0 < s.pos) (h2 : b2.openPrice = some p)
    (hp : 0 < p) (hbd : s.buyDay = some bd)
    (hold : ps.maxHold ≤ b2.day - bd) :
    (step ps fs b1 b2 s).pos = 0 ∧
    (step ps fs b1 b2 s).cash = s.pos * p * (1 - ps.fee) := by
  rcases b2 with ⟨d2, op2, sc2⟩
  rcases s with ⟨cash, pos, buyDay⟩
  obtain rfl : op2 = some p := h2
  obtain rfl : buyDay = some bd := hbd
  have hheld : heldLong ps.maxHold ⟨cash, pos, some bd⟩ ⟨d2, some p, sc2⟩ = true := by
    simp only [heldLong]
    exact decide_eq_true hold
  have hs : step ps fs b1 ⟨d2, some p, sc2⟩ ⟨cash, pos, some bd⟩
      = ⟨pos * p * (1 - ps.fee), 0, some bd⟩ := by
    simp only [step]
    rw [if_neg (not_le.mpr hp), if_neg (fun h => hpos.ne' h.1),
      if_pos ⟨hpos, Or.inr hheld⟩]
  rw [hs]
  exact ⟨rfl, rfl⟩

/-- Witness for C4: a position opened on day 0 is force-liquidated on day
120 with the default `MAX_HOLD_DAYS = 120`, although the exit flag is
false (`exitSig 40 0 90 = false`). -/
theorem forced_liquidation_witness :
    exitSig (defaultParams 60 40).tx 0 (90 : ℚ) = false ∧
    (step (defaultParams 60 40) 0 ⟨119, some 10, 90⟩ ⟨120, some 10, 90⟩
      ⟨0, 1994, some 0⟩).pos = 0 ∧
    (step (defaultParams 60 40) 0 ⟨119, some 10, 90⟩ ⟨120, some 10, 90⟩
      ⟨0, 1994, some 0⟩).cash = 1994 * 10 * (1 - (defaultParams 60 40).fee) :=
  ⟨by decide,
    forced_liquidation (defaultParams 60 40) 0 10 0
      ⟨119, some 10, 90⟩ ⟨120, some 10, 90⟩ ⟨0, 1994, some 0⟩
      (by norm_num) rfl (by norm_num) rfl (by decide)⟩

/-- C8: on a day whose open price is missing (NaN) or non-positive, the
simulator performs no transition: the whole state is carried forward
unchanged. -/
theorem invalid_price_skips_day (ps : Params) (fs : ℚ) (b1 b2 : Bar)
    (s : SimState)
    (h : b2.openPrice = none ∨ ∃ p, b2.openPrice = some p ∧ p ≤ 0) :
    step ps fs b1 b2 s = s := by
  rcases b2 with ⟨d2, op2, sc2⟩
  rcases h with h | ⟨p, h, hp⟩
  · obtain rfl : op2 = none := h
    simp only [step]
  · obtain rfl : op2 = some p := h
    simp only [step]
    rw [if_pos hp]

/-- Witness for C8: a NaN open price and a zero open price both leave a
holding state untouched. -/
theorem invalid_price_skips_day_witness :
    step (defaultParams 60 40) 0 ⟨0, some 10, 90⟩ ⟨1, none, 90⟩
      ⟨123, 5, some 0⟩ = ⟨123, 5, some 0⟩ ∧
    step (defaultParams 60 40) 0 ⟨1, none, 90⟩ ⟨2, some 0, 90⟩
      ⟨123, 5, some 0⟩ = ⟨123, 5, some 0⟩ :=
  ⟨invalid_price_skips_day (defaultParams 60 40) 0 ⟨0, some 10, 90⟩
      ⟨1, none, 90⟩ ⟨123, 5, some 0⟩ (Or.inl rfl),
    invalid_price_skips_day (defaultParams 60 40) 0 ⟨1, none, 90⟩
      ⟨2, some 0, 90⟩ ⟨123, 5, some 0⟩ (Or.inr ⟨0, rfl, le_refl 0⟩)⟩

/-- C7: for every price series of fewer than 30 rows,
`calculate_indicators` returns the `None` sentinel and
`get_technical_score` returns a technical score of 0 (both functions are
total, so no exception can be raised). -/
theorem insufficient_data_sentinel (rows : List PriceRow)
    (h : rows.length < 30) :
    calculate_indicators rows = none ∧ get_technical_score rows = 0 := by
  have hc : calculate_indicators rows = none := by
    unfold calculate_indicators
    by_cases he : rows.isEmpty
    · rw [if_pos he]
    · rw [if_neg he, if_pos h]
  refine ⟨hc, ?_⟩
  unfold get_technical_score
  rw [hc]

/-- Witness for C7 on a one-row series. -/
theorem insufficient_data_sentinel_witness :
    calculate_indicators [⟨1, 1, 1⟩] = none ∧
    get_technical_score [⟨1, 1, 1⟩] = 0 :=
  insufficient_data_sentinel [⟨1, 1, 1⟩] (by decide)

/-- C10: when every security's price series is empty, `run_backtest`
skips them all and returns exactly 0.0 instead of dividing by zero, and
this sentinel is indistinguishable from a genuine 0% average return: a
non-empty run that traded nothing also returns exactly 0.0. -/
theorem empty_results_mean_zero :
    (∀ (te tx : ℚ) (ts : List TickerData), (∀ t ∈ ts, t.bars = []) →
      run_backtest te tx ts = XQ.fin 0) ∧
    run_backtest 40 20 [⟨0, [⟨0, some 10, 0⟩, ⟨1, some 10, 0⟩]⟩]
      = XQ.fin 0 := by
  constructor
  · intro te tx ts h
    have hres : ts.filterMap (fun t =>
        if t.bars.isEmpty then none
        else some (profitPct (defaultParams te tx) t.fscore t)) = [] := by
      rw [List.filterMap_eq_nil_iff]
      intro t ht
      simp [h t ht]
    simp only [run_backtest]
    rw [hres]
    rfl
  · have hstep : step (defaultParams 40 20) 0 ⟨0, some 10, 0⟩ ⟨1, some 10, 0⟩
        ⟨20000, 0, none⟩ = ⟨20000, 0, none⟩ := by
      simp only [step]
      rw [if_neg (by norm_num : ¬ (10 : ℚ) ≤ 0),
        if_neg (fun h => absurd h.2 (by decide)),
        if_neg (fun h => absurd h.1 (lt_irrefl 0))]
    have hsim : simulate (defaultParams 40 20) 0
        [⟨0, some 10, 0⟩, ⟨1, some 10, 0⟩] = ⟨20000, 0, none⟩ := by
      simp only [simulate, simSteps]
      exact hstep
    have hfc : finalCash (defaultParams 40 20) 0
        ⟨0, [⟨0, some 10, 0⟩, ⟨1, some 10, 0⟩]⟩ = XQ.fin 20000 := by
      simp only [finalCash, hsim]
      norm_num
    have hpp : profitPct (defaultParams 40 20) 0
        ⟨0, [⟨0, some 10, 0⟩, ⟨1, some 10, 0⟩]⟩ = XQ.fin 0 := by
      simp only [profitPct, hfc]
      norm_num [defaultParams]
    simp only [run_backtest, List.filterMap_cons, List.filterMap_nil, hpp]
    norm_num [xadd, xdivNat, xround2, round2, roundHalfEven]

/-- Witness for C10: a single security with an empty series. -/
theorem empty_results_mean_zero_witness :
    (∀ t ∈ [(⟨7, []⟩ : TickerData)], t.bars = []) ∧
    run_backtest 10 5 [⟨7, []⟩] = XQ.fin 0 :=
  ⟨by decide, empty_results_mean_zero.1 10 5 [⟨7, []⟩] (by decide)⟩

/-- C9 counterexample: with `entry_threshold = 20 ≤ 80 = exit_threshold`
the engine does not fail at setup: `run_backtest` runs the simulation to
completion and returns an ordinary realized-return aggregate (here
-0.6%, the double fee drag of the buy-then-sell churn the contradictory
thresholds cause), not a configuration error. -/
theorem config_unvalidated_cex :
    (20 : ℚ) ≤ 80 ∧
    run_backtest 20 80
      [⟨0, [⟨0, some 10, 50⟩, ⟨1, some 10, 50⟩, ⟨2, some 10, 50⟩]⟩]
      = XQ.fin (-3 / 5) ∧
    XQ.fin (-3 / 5) ≠ XQ.fin 0 := by
  refine ⟨by norm_num, ?_, by simp⟩
  have hs1 : step (defaultParams 20 80) 0 ⟨0, some 10, 50⟩ ⟨1, some 10, 50⟩
      ⟨20000, 0, none⟩ = ⟨0, 1994, some 1⟩ := by
    simp only [step]
    rw [if_neg (by norm_num : ¬ (10 : ℚ) ≤ 0), if_pos ⟨by trivial, by decide⟩]
    norm_num [defaultParams]
  have hs2 : step (defaultParams 20 80) 0 ⟨1, some 10, 50⟩ ⟨2, some 10, 50⟩
      ⟨0, 1994, some 1⟩ = ⟨994009 / 50, 0, some 1⟩ := by
    simp only [step]
    rw [if_neg (by norm_num : ¬ (10 : ℚ) ≤ 0),
      if_neg (fun h => absurd h.1 (by norm_num)),
      if_pos ⟨by norm_num, Or.inl (by decide)⟩]
    norm_num [defaultParams]
  have hsim : simulate (defaultParams 20 80) 0
      [⟨0, some 10, 50⟩, ⟨1, some 10, 50⟩, ⟨2, some 10, 50⟩]
      = ⟨994009 / 50, 0, some 1⟩ := by
    simp only [simulate, simSteps]
    rw [show (defaultParams 20 80).capital = (20000 : ℚ) from rfl, hs1, hs2]
  have hfc : finalCash (defaultParams 20 80) 0
      ⟨0, [⟨0, some 10, 50⟩, ⟨1, some 10, 50⟩, ⟨2, some 10, 50⟩]⟩
      = XQ.fin (994009 / 50) := by
    simp only [finalCash, hsim]
    norm_num
  have hpp : profitPct (defaultParams 20 80) 0
      ⟨0, [⟨0, some 10, 50⟩, ⟨1, some 10, 50⟩, ⟨2, some 10, 50⟩]⟩
      = XQ.fin (-5991 / 10000) := by
    simp only [profitPct, hfc]
    norm_num [defaultParams]
  simp only [run_backtest, List.filterMap_cons, List.filterMap_nil, hpp]
  norm_num [xadd, xdivNat, xround2, round2, roundHalfEven]

/-- C9 amended: the engine performs no configuration validation.  A
configuration with `entry_threshold ≤ exit_threshold` is accepted and
simulated; on any day whose technical score lies between the two
thresholds (financial score non-positive), the entry and exit signals
are both raised simultaneously. -/
theorem config_unvalidated_runs (te tx s fs : ℚ)
    (hcfg : te ≤ tx) (h2 : te ≤ s) (h3 : s ≤ tx) (h4 : fs ≤ 0) :
    entrySig te fs s = true ∧ exitSig tx fs s = true := by
  have : te ≤ tx := hcfg
  constructor
  · simp [entrySig, h2, h4]
  · simp [exitSig, h3]

/-- Witness for C9's amended statement at `te = 30 ≤ tx = 60`, score 45. -/
theorem config_unvalidated_runs_witness :
    entrySig 30 0 45 = true ∧ exitSig 60 0 45 = true :=
  config_unvalidated_runs 30 60 45 0 (by norm_num) (by norm_num)
    (by norm_num) (by norm_num)

/-- With a full window, the RSI delta window has exactly `period`
elements. -/
theorem rsiWindow_length (closes : List ℚ) (period i : ℕ)
    (h1 : period ≤ i) (h2 : i < closes.length) :
    (rsiWindow closes period i).length = period := by
  simp only [rsiWindow, deltas, List.length_take, List.length_drop,
    List.length_zipWith, List.length_tail]
  omega

/-- C6 counterexample: on a constant price series (15 bars at price 10)
the trailing average loss over the 14-bar window is 0, yet the RSI of
`_calculate_rsi` is NaN, not 100: the average gain is also 0, so
`rs = 0/0` is NaN and so is `100 - 100/(1 + rs)`. -/
theorem rsi_flat_window_nan :
    avgLoss (rsiWindow (List.replicate 15 (10 : ℚ)) 14 14) 14 = 0 ∧
    rsiAt (List.replicate 15 (10 : ℚ)) 14 14 = XQ.nan ∧
    XQ.nan ≠ XQ.fin 100 := by
  have hw : rsiWindow (List.replicate 15 (10 : ℚ)) 14 14
      = List.replicate 14 0 := by
    norm_num [rsiWindow, deltas, List.replicate]
  refine ⟨?_, ?_, by simp⟩
  · rw [hw]
    norm_num [avgLoss, List.replicate]
  · simp only [rsiAt]
    rw [if_neg (by norm_num), hw]
    norm_num [avgGain, avgLoss, List.replicate, xdivQ, rsiOfRs]

/-- C6 amended: with a full RSI window, (a) all-positive deltas give
RSI = 100, (b) all-negative deltas give RSI = 0, and (c) zero average
loss gives RSI = 100 **provided** the average gain is nonzero — a window
in which both averages are 0 (a flat price window) yields NaN instead
(see the counterexample). -/
theorem rsi_gain_loss_cases (closes : List ℚ) (period i : ℕ)
    (hp : 0 < period) (h1 : period ≤ i) (h2 : i < closes.length) :
    ((∀ d ∈ rsiWindow closes period i, 0 < d) →
      rsiAt closes period i = XQ.fin 100) ∧
    ((∀ d ∈ rsiWindow closes period i, d < 0) →
      rsiAt closes period i = XQ.fin 0) ∧
    (avgLoss (rsiWindow closes period i) period = 0 →
      avgGain (rsiWindow closes period i) period ≠ 0 →
      rsiAt closes period i = XQ.fin 100) := by
  have hcond : ¬ (i < period ∨ closes.length ≤ i) := by omega
  have hlen : (rsiWindow closes period i).length = period :=
    rsiWindow_length closes period i h1 h2
  have hne : rsiWindow closes period i ≠ [] := by
    intro h
    rw [h] at hlen
    simp at hlen
    omega
  have hgain_nonneg : 0 ≤ avgGain (rsiWindow closes period i) period := by
    unfold avgGain
    apply div_nonneg ?_ (by positivity)
    apply List.sum_nonneg
    intro x hx
    simp only [List.mem_map] at hx
    obtain ⟨d, _, rfl⟩ := hx
    exact le_max_right d 0
  have key : avgLoss (rsiWindow closes period i) period = 0 →
      0 < avgGain (rsiWindow closes period i) period →
      rsiAt closes period i = XQ.fin 100 := by
    intro hl hg
    have hdiv : xdivQ (avgGain (rsiWindow closes period i) period)
        (avgLoss (rsiWindow closes period i) period) = XQ.inf := by
      rw [hl]
      unfold xdivQ
      rw [if_pos rfl, if_neg hg.ne', if_pos hg]
    unfold rsiAt
    rw [if_neg hcond, hdiv]
    rfl
  refine ⟨?_, ?_, ?_⟩
  · intro hall
    have hl : avgLoss (rsiWindow closes period i) period = 0 := by
      unfold avgLoss
      rw [List.sum_eq_zero, zero_div]
      intro x hx
      simp only [List.mem_map] at hx
      obtain ⟨d, hd, rfl⟩ := hx
      exact max_eq_right (neg_nonpos.mpr (le_of_lt (hall d hd)))
    have hg : 0 < avgGain (rsiWindow closes period i) period := by
      unfold avgGain
      apply div_pos ?_ (by exact_mod_cast hp)
      apply List.sum_pos
      · intro x hx
        simp only [List.mem_map] at hx
        obtain ⟨d, hd, rfl⟩ := hx
        exact lt_max_of_lt_left (hall d hd)
      · intro hmap
        exact hne (List.map_eq_nil_iff.mp hmap)
    exact key hl hg
  · intro hall
    have hg : avgGain (rsiWindow closes period i) period = 0 := by
      unfold avgGain
      rw [List.sum_eq_zero, zero_div]
      intro x hx
      simp only [List.mem_map] at hx
      obtain ⟨d, hd, rfl⟩ := hx
      exact max_eq_right (le_of_lt (hall d hd))
    have hl : 0 < avgLoss (rsiWindow closes period i) period := by
      unfold avgLoss
      apply div_pos ?_ (by exact_mod_cast hp)
      apply List.sum_pos
      · intro x hx
        simp only [List.mem_map] at hx
        obtain ⟨d, hd, rfl⟩ := hx
        exact lt_max_of_lt_left (neg_pos.mpr (hall d hd))
      · intro hmap
        exact hne (List.map_eq_nil_iff.mp hmap)
    have hdiv : xdivQ (avgGain (rsiWindow closes period i) period)
        (avgLoss (rsiWindow closes period i) period) = XQ.fin 0 := by
      rw [hg]
      unfold xdivQ
      rw [if_neg hl.ne', zero_div]
    unfold rsiAt
    rw [if_neg hcond, hdiv]
    norm_num [rsiOfRs]
  · intro hl hg
    exact key hl (lt_of_le_of_ne hgain_nonneg (Ne.symm hg))

/-- Witness for C6's amended statement: a strictly rising 15-bar series
has an all-positive delta window and RSI exactly 100. -/
theorem rsi_gain_loss_cases_witness :
    rsiAt [0, 1, 2, 3, 4, 5, 6, 7, 8, 9, 10, 11, 12, 13, 14] 14 14
      = XQ.fin 100 := by
  have hw : rsiWindow ([0, 1, 2, 3, 4, 5, 6, 7, 8, 9, 10, 11, 12, 13, 14] :
      List ℚ) 14 14 = [1, 1, 1, 1, 1, 1, 1, 1, 1, 1, 1, 1, 1, 1] := by
    norm_num [rsiWindow, deltas]
  refine (rsi_gain_loss_cases _ 14 14 (by norm_num) (by norm_num)
    (by norm_num)).1 ?_
  rw [hw]
  intro d hd
  simp at hd
  rw [hd]
  norm_num

/-- The running best never decreases the selected return. -/
theorem bestIn_ge (r : ℕ × ℕ → ℚ) :
    ∀ (l : List (ℕ × ℕ)) (b : ℕ × ℕ), r b ≤ r (bestIn r b l)
  | [], _ => le_refl _
  | p :: ps, b => by
      simp only [bestIn]
      by_cases h : r b < r p
      · rw [if_pos h]
        exact le_of_lt (lt_of_lt_of_le h (bestIn_ge r ps p))
      · rw [if_neg h]
        exact bestIn_ge r ps b

/-- Once a first pair is installed, the selection loop computes the
running best. -/
theorem selectLoop_some (r : ℕ × ℕ → ℚ) :
    ∀ (l : List (ℕ × ℕ)) (b : ℕ × ℕ),
      selectLoop r l (some b, r b) = (some (bestIn r b l), r (bestIn r b l))
  | [], _ => rfl
  | p :: ps, b => by
      simp only [selectLoop, bestIn]
      by_cases h : r b < r p
      · rw [if_pos h, if_pos h]
        exact selectLoop_some r ps p
      · rw [if_neg h, if_neg h]
        exact selectLoop_some r ps b

/-- The running best is the first element attaining the maximum: every
pair strictly before it has a strictly smaller return, every pair after
it a smaller-or-equal one. -/
theorem bestIn_decomp (r : ℕ × ℕ → ℚ) :
    ∀ (l : List (ℕ × ℕ)) (b : ℕ × ℕ),
      ∃ l1 l2, b :: l = l1 ++ bestIn r b l :: l2 ∧
        (∀ p ∈ l1, r p < r (bestIn r b l)) ∧
        (∀ p ∈ l2, r p ≤ r (bestIn r b l))
  | [], b => ⟨[], [], rfl, by simp, by simp⟩
  | x :: xs, b => by
      simp only [bestIn]
      by_cases h : r b < r x
      · rw [if_pos h]
        obtain ⟨l1, l2, heq, h1, h2⟩ := bestIn_decomp r xs x
        refine ⟨b :: l1, l2, ?_, ?_, h2⟩
        · rw [List.cons_append, ← heq]
        · intro p hp
          rcases List.mem_cons.mp hp with rfl | hp
          · exact lt_of_lt_of_le h (bestIn_ge r xs x)
          · exact h1 p hp
      · rw [if_neg h]
        obtain ⟨l1, l2, heq, h1, h2⟩ := bestIn_decomp r xs b
        cases l1 with
        | nil =>
            simp only [List.nil_append] at heq
            obtain ⟨hm, hl2⟩ := List.cons.inj heq
            refine ⟨[], x :: xs, ?_, by simp, ?_⟩
            · rw [List.nil_append, ← hm]
            · intro p hp
              rcases List.mem_cons.mp hp with rfl | hp
              · rw [← hm]
                exact not_lt.mp h
              · rw [hl2] at hp
                exact h2 p hp
        | cons q l1t =>
            simp only [List.cons_append] at heq
            obtain ⟨hq, hxs⟩ := List.cons.inj heq
            have hqm : r b < r (bestIn r b xs) := by
              have := h1 q (List.mem_cons_self q l1t)
              rw [← hq] at this
              exact this
            refine ⟨b :: x :: l1t, l2, ?_, ?_, h2⟩
            · simp only [List.cons_append]
              rw [← hxs]
            · intro p hp
              rcases List.mem_cons.mp hp with rfl | hp
              · exact hqm
              rcases List.mem_cons.mp hp with rfl | hp
              · exact lt_of_le_of_lt (not_lt.mp h) hqm
              · exact h1 p (List.mem_cons_of_mem q hp)

/-- Starting the selection loop from the sentinel installs the first
pair (its return beats the sentinel) and then runs the running best. -/
theorem selectLoop_start (r : ℕ × ℕ → ℚ) (l : List (ℕ × ℕ)) (p0 : ℕ × ℕ)
    (h : -999 < r p0) :
    selectLoop r (p0 :: l) (none, -999)
      = (some (bestIn r p0 l), r (bestIn r p0 l)) := by
  simp only [selectLoop]
  rw [if_pos h]
  exact selectLoop_some r l p0

/-- C5: the grid search iterates exactly pairs with
`entry_threshold > exit_threshold`, in ascending-entry-then-ascending-exit
order, and selects the pair with the highest average return, breaking
ties in favour of the first-encountered pair: every pair before the
selected one scores strictly less, every pair after it at most as much. -/
theorem grid_search_first_best (r : ℕ × ℕ → ℚ)
    (hr : ∀ p ∈ gridPairs, -999 < r p) :
    (∀ p ∈ gridPairs, p.2 < p.1) ∧
    sortedLex gridPairs = true ∧
    ∃ q l1 l2, selectBest r = (some q, r q) ∧ gridPairs = l1 ++ q :: l2 ∧
      (∀ p ∈ l1, r p < r q) ∧ (∀ p ∈ l2, r p ≤ r q) := by
  refine ⟨by decide, by decide, ?_⟩
  have hgrid : gridPairs = (40, 20) :: gridPairs.tail := by decide
  have h0 : -999 < r (40, 20) := hr (40, 20) (by decide)
  obtain ⟨l1, l2, heq, h1, h2⟩ := bestIn_decomp r gridPairs.tail (40, 20)
  refine ⟨bestIn r (40, 20) gridPairs.tail, l1, l2, ?_, ?_, h1, h2⟩
  · unfold selectBest
    rw [hgrid]
    exact selectLoop_start r gridPairs.tail (40, 20) h0
  · rw [hgrid]
    exact heq

/-- A concrete return function (peaking at the pair `(60, 30)`), used to
instantiate the grid-search characterization. -/
def gridR (p : ℕ × ℕ) : ℚ := if p.1 = 60 ∧ p.2 = 30 then 1 else 0

/-- Witness for C5 with a concrete return function. -/
theorem grid_search_first_best_witness :
    (∀ p ∈ gridPairs, (-999 : ℚ) < gridR p) ∧
    ((∀ p ∈ gridPairs, p.2 < p.1) ∧
      sortedLex gridPairs = true ∧
      ∃ q l1 l2, selectBest gridR = (some q, gridR q) ∧
        gridPairs = l1 ++ q :: l2 ∧ (∀ p ∈ l1, gridR p < gridR q) ∧
        (∀ p ∈ l2, gridR p ≤ gridR q)) :=
  ⟨by decide, grid_search_first_best gridR (by decide)⟩
